import Mathlib

/-!
Verification development for the epater ARM simulator core
(`procsimulator.py` and `simulatorOps/halfSignedMemOp.py`).

The Python classes are shallowly embedded: machine words are `Nat`/`Int`
with explicit masking by 2^32 where the source masks with `0xFFFFFFFF`,
byte buffers are `List Nat`, Python exceptions become `Option` results
(`none` = the source raises), and the single latched breakpoint slot
(`BreakPointHandler`) is threaded explicitly through every operation.
Addresses and arithmetic intermediates are `Int` because Python integers
are unbounded and effective addresses can go negative.
-/

set_option maxRecDepth 4000

/-- Latched breakpoint event, mirroring `BkptInfo` in the source:
a source tag, a mode bit, and either an address / register id or a flag name. -/
inductive BkptArg
  | i (n : Int)
  | s (n : String)
deriving DecidableEq, Repr

structure BkptInfo where
  source : String
  mode : Nat
  info : BkptArg
deriving DecidableEq, Repr

/-- The single-slot breakpoint latch (`BreakPointHandler`). -/
structure Bus where
  trigged : Bool
  info : Option BkptInfo
deriving DecidableEq, Repr

def Bus.throw (_ : Bus) (e : BkptInfo) : Bus := ⟨true, some e⟩

/-- One named memory section: start address, exclusive end address
(`startAddr[sec]`, `endAddr[sec]`) and its mutable byte buffer (`data[sec]`).
Section names are replaced by list positions; Python 3 dicts iterate in
insertion order, which the list order models. -/
structure Segment where
  start : Int
  stop : Int
  data : List Nat
deriving DecidableEq, Repr

def seg0 : Segment := ⟨0, 0, []⟩

/-- The `Memory` object: sections, the append-only write log `history`
(entries `(sec, offset, size, value)`), and the per-address breakpoint
mask `breakpoints` (a `defaultdict(int)`, modelled as an association list
with default 0). -/
structure Memory where
  segments : List Segment
  history : List (Nat × Int × Nat × Int)
  bkptMask : List (Int × Nat)
deriving DecidableEq, Repr

def Memory.bkptAt (m : Memory) (a : Int) : Nat := ((m.bkptMask.lookup a).getD 0)

/-- `self.maxAddr = max(self.endAddr.values())` (0 if there is no section;
the source would raise there). -/
def Memory.maxAddr (m : Memory) : Int :=
  match m.segments with
  | [] => 0
  | s :: rest => rest.foldl (fun a t => max a t.stop) s.stop

/-- The scan loop of `Memory._getRelativeAddr`: first section with
`startAddr[sec] <= addr < endAddr[sec] - (size-1)`, returning its index and
the offset `addr - startAddr[sec]`. -/
def findSeg (addr sizeI : Int) : List Segment → Nat → Option (Nat × Int)
  | [], _ => none
  | s :: rest, i =>
    if s.start ≤ addr ∧ addr < s.stop - (sizeI - 1) then some (i, addr - s.start)
    else findSeg addr sizeI rest (i + 1)

/-- `Memory._getRelativeAddr(addr, size)`. -/
def Memory.getRelativeAddr (m : Memory) (addr : Int) (size : Nat) : Option (Nat × Int) :=
  if addr < 0 ∨ addr > m.maxAddr - ((size : Int) - 1) then none
  else findSeg addr (size : Int) m.segments 0

/-- The read-breakpoint scan in `Memory.get`: for each byte offset, an
exec event (mask bit 1, only in `execMode`) then a read event (mask bit 4). -/
def Memory.readEvents (m : Memory) (addr : Int) (size : Nat) (execMode : Bool) :
    List BkptInfo :=
  (List.range size).foldl
    (fun acc o =>
      let a := addr + (o : Int)
      let acc := if execMode ∧ m.bkptAt a &&& 1 ≠ 0 then acc ++ [⟨"memory", 1, .i a⟩] else acc
      if m.bkptAt a &&& 4 ≠ 0 then acc ++ [⟨"memory", 4, .i a⟩] else acc)
    []

/-- `Memory.get(addr, size, execMode)`: `none` with a `(memory, 8, addr)`
event when the address does not resolve, otherwise the slice
`data[sec][offset:offset+size]` together with the breakpoint events thrown. -/
def Memory.getE (m : Memory) (addr : Int) (size : Nat) (execMode : Bool) :
    Option (List Nat) × List BkptInfo :=
  match m.getRelativeAddr addr size with
  | none => (none, [⟨"memory", 8, .i addr⟩])
  | some (sec, offset) =>
    (some (((m.segments.getD sec seg0).data.drop offset.toNat).take size),
     m.readEvents addr size execMode)

/-- The write-breakpoint scan in `Memory.set` (mask bit 2 per byte). -/
def Memory.writeEvents (m : Memory) (addr : Int) (size : Nat) : List BkptInfo :=
  (List.range size).foldl
    (fun acc o =>
      let a := addr + (o : Int)
      if m.bkptAt a &&& 2 ≠ 0 then acc ++ [⟨"memory", 2, .i a⟩] else acc)
    []

/-- Outcome of `Memory.set`: the `Memory` object's state when control
leaves the call (by return or by an escaping exception), the breakpoint
events thrown, and whether the call raised. -/
structure SetResult where
  mem : Memory
  events : List BkptInfo
  raised : Bool
deriving DecidableEq, Repr

/-- `Memory.set(addr, val, size)`: on a bad address, a `(memory, 8, addr)`
event and no state change. On a valid address: the per-byte write
breakpoints are scanned (bit 2), `val &= 0xFFFFFFFF`, the write-log entry
`(sec, offset, size, val)` is appended — and then the statement
`data[sec][offset:offset+size] = val` raises `TypeError` (on Python 3.2+
an integer cannot be assigned to a bytearray slice), so the byte buffer
is never modified and the exception escapes with the history entry
already appended. -/
def Memory.setE (m : Memory) (addr val : Int) (size : Nat) : SetResult :=
  match m.getRelativeAddr addr size with
  | none => ⟨m, [⟨"memory", 8, .i addr⟩], false⟩
  | some (sec, offset) =>
    let v := val % 4294967296
    ⟨{ m with history := m.history ++ [(sec, offset, size, v)] },
     m.writeEvents addr size, true⟩

/-- One step of `Memory.serialize`'s loop: pad with zeros up to the section
start (`'\0' * padding_size` is empty for a negative count), append the
section buffer, then pad up to the section end. -/
def serStep (acc : List Nat) (s : Segment) : List Nat :=
  acc ++ List.replicate (s.start - (acc.length : Int)).toNat 0 ++ s.data
      ++ List.replicate (s.stop - s.start - (s.data.length : Int)).toNat 0

/-- The `sorted(..., key=itemgetter(1))` comparison: ascending start address. -/
def segLE (a b : Segment) : Bool := decide (a.start ≤ b.start)

/-- `Memory.serialize()`: sections in ascending start order (Python `sorted`
is stable, as is `List.mergeSort`), folded through `serStep` from an empty
buffer. -/
def Memory.serialize (m : Memory) : List Nat :=
  (List.mergeSort m.segments segLE).foldl serStep []

/-- A `Register`: 32-bit value, append-only history of written values,
and a breakpoint mask. -/
structure Reg where
  val : Nat
  history : List Nat
  breakpoint : Nat
deriving DecidableEq, Repr

def reg0 : Reg := ⟨0, [], 0⟩

/-- A `Flag`: boolean value and a breakpoint mask. -/
structure SFlag where
  val : Bool
  breakpoint : Nat
deriving DecidableEq, Repr

/-- The four named flags `{'Z','V','C','N'}` of the simulator. -/
structure FlagFile where
  z : SFlag
  v : SFlag
  c : SFlag
  n : SFlag
deriving DecidableEq, Repr

def FlagFile.getF : FlagFile → String → SFlag
  | f, "Z" => f.z
  | f, "V" => f.v
  | f, "C" => f.c
  | f, "N" => f.n
  | _, _ => ⟨false, 0⟩

def FlagFile.setF (f : FlagFile) (name : String) (fl : SFlag) : FlagFile :=
  if name = "Z" then { f with z := fl }
  else if name = "V" then { f with v := fl }
  else if name = "C" then { f with c := fl }
  else if name = "N" then { f with n := fl }
  else f

/-- `SimState` lifecycle enumeration. -/
inductive SimState
  | undefined
  | uninit
  | ready
  | started
  | stopped
  | finished
deriving DecidableEq, Repr

/-- The `Simulator` object state: 16 registers, the flag file, memory, the
breakpoint latch, the fetch buffer, the cycle counter, lifecycle state and
the step-mode bookkeeping (`stepMode` is `None`/`"forward"`/`"out"`/`"into"`). -/
structure Sim where
  regs : List Reg
  flags : FlagFile
  mem : Memory
  bus : Bus
  fetchedInstr : Option (List Nat)
  countCycle : Nat
  simState : SimState
  stepMode : Option String
  stepCondition : Int
deriving DecidableEq, Repr

/-- `Register.get()`: throw `(register, 4, id)` when mask bit 4 is set,
return the value. -/
def Sim.regGet (s : Sim) (i : Nat) : Nat × Sim :=
  let r := s.regs.getD i reg0
  if r.breakpoint &&& 4 ≠ 0 then (r.val, { s with bus := s.bus.throw ⟨"register", 4, .i i⟩ })
  else (r.val, s)

/-- `Register.set(val)`: truncate to 32 bits, throw `(register, 2, id)` when
mask bit 2 is set, append to history, store. -/
def Sim.regSet (s : Sim) (i : Nat) (v : Int) : Sim :=
  let v32 := (v % 4294967296).toNat
  let r := s.regs.getD i reg0
  let s := if r.breakpoint &&& 2 ≠ 0 then { s with bus := s.bus.throw ⟨"register", 2, .i i⟩ } else s
  { s with regs := s.regs.set i { r with history := r.history ++ [v32], val := v32 } }

/-- `Flag.get()` with its read-breakpoint throw. -/
def Sim.flagGet (s : Sim) (name : String) : Bool × Sim :=
  let f := s.flags.getF name
  if f.breakpoint &&& 4 ≠ 0 then (f.val, { s with bus := s.bus.throw ⟨"flag", 4, .s name⟩ })
  else (f.val, s)

/-- `Flag.set(val)` with its write-breakpoint throw. -/
def Sim.flagSet (s : Sim) (name : String) (v : Bool) : Sim :=
  let f := s.flags.getF name
  let s := if f.breakpoint &&& 2 ≠ 0 then { s with bus := s.bus.throw ⟨"flag", 2, .s name⟩ } else s
  { s with flags := s.flags.setF name { f with val := v } }

/-- Feed a list of memory events into the latch, in order. -/
def Sim.busEvents (s : Sim) (evs : List BkptInfo) : Sim :=
  evs.foldl (fun t e => { t with bus := t.bus.throw e }) s

/-- Shift specification as carried in the decoded instruction
(`shiftInfo = (kind, 'imm'|'reg', amount-or-register)`). -/
inductive ShiftSrc
  | reg
  | imm
deriving DecidableEq, Repr

structure ShiftInfo where
  kind : String
  mode : ShiftSrc
  arg : Nat
deriving DecidableEq, Repr

/-- `Simulator._shiftVal(val, shiftInfo)`. The shift amount is the low 4
bits of a register or the immediate. `none` models the `ValueError` the
source raises on `val >> (shiftamount-1)` with amount 0 (LSR/ASR).
In the ASR branch the source computes `firstBit` but never uses it and ORs
in `2**(shiftamount+1) << (32-shiftamount)`, i.e. `2^33`; this is translated
verbatim. For RRX the source evaluates `int(self.flags['C'])`, a read of the
C flag. Unknown kinds leave `carryOut = 0` and `val` unchanged. -/
def Sim.shiftVal (s : Sim) (val : Nat) (sh : ShiftInfo) : Option ((Nat × Nat) × Sim) :=
  let amt : Nat × Sim :=
    match sh.mode with
    | .reg => let g := s.regGet sh.arg; (g.1 &&& 0xF, g.2)
    | .imm => (sh.arg, s)
  let n := amt.1
  let s := amt.2
  if sh.kind = "LSL" then
    some (((val >>> (32 - n)) &&& 1, (val <<< n) &&& 0xFFFFFFFF), s)
  else if sh.kind = "LSR" then
    if n = 0 then none
    else some (((val >>> (n - 1)) &&& 1, (val >>> n) &&& 0xFFFFFFFF), s)
  else if sh.kind = "ASR" then
    if n = 0 then none
    else some (((val >>> (n - 1)) &&& 1,
                ((val >>> n) &&& 0xFFFFFFFF) ||| ((2 ^ (n + 1)) <<< (32 - n))), s)
  else if sh.kind = "ROR" then
    if n = 0 then
      let g := s.flagGet "C"
      some ((val &&& 1, (val >>> 1) ||| ((if g.1 then 1 else 0) <<< 31)), g.2)
    else
      some (((val >>> (n - 1)) &&& 1,
             ((val &&& (2 ^ 32 - 1)) >>> (n % 32)) |||
               ((val <<< (32 - n % 32)) &&& (2 ^ 32 - 1))), s)
  else some ((0, val), s)

/-- The condition check of `Simulator.execInstr` (lines 288-303), translated
branch for branch: the result is `true` when the *inverse* condition matched
and the instruction must be skipped. Flag objects in a boolean context go
through `Flag.get` (throwable); `==` between two flags compares the raw
`val` fields (`Flag.__eq__`) and throws nothing. The source compares the
mnemonic against the string `"PI"` (not `"PL"`), and has no case for `"AL"`
or `"NV"`, so any mnemonic other than the fourteen listed falls through to
`false` (execute). -/
def Sim.condFails (s : Sim) (cond : String) : Bool × Sim :=
  if cond = "EQ" then let g := s.flagGet "Z"; (!g.1, g.2)
  else if cond = "NE" then let g := s.flagGet "Z"; (g.1, g.2)
  else if cond = "CS" then let g := s.flagGet "C"; (!g.1, g.2)
  else if cond = "CC" then let g := s.flagGet "C"; (g.1, g.2)
  else if cond = "MI" then let g := s.flagGet "N"; (!g.1, g.2)
  else if cond = "PI" then let g := s.flagGet "N"; (g.1, g.2)
  else if cond = "VS" then let g := s.flagGet "V"; (!g.1, g.2)
  else if cond = "VC" then let g := s.flagGet "V"; (g.1, g.2)
  else if cond = "HI" then
    let g := s.flagGet "C"
    if !g.1 then (true, g.2) else let g2 := g.2.flagGet "Z"; (g2.1, g2.2)
  else if cond = "LS" then
    let g := s.flagGet "C"
    if !g.1 then (false, g.2) else let g2 := g.2.flagGet "Z"; (!g2.1, g2.2)
  else if cond = "GE" then (!((s.flags.getF "V").val == (s.flags.getF "N").val), s)
  else if cond = "LT" then ((s.flags.getF "V").val == (s.flags.getF "N").val, s)
  else if cond = "GT" then
    let g := s.flagGet "Z"
    if g.1 then (true, g.2)
    else (!((g.2.flags.getF "V").val == (g.2.flags.getF "N").val), g.2)
  else if cond = "LE" then
    let g := s.flagGet "Z"
    if g.1 then (false, g.2)
    else ((g.2.flags.getF "V").val == (g.2.flags.getF "N").val, g.2)
  else (false, s)

/-- Modelled from the spec: the decoder (`BytecodeToInstrInfos` in
`instruction.py`) is not part of the sources; spec section 3 "Decoded
Instruction" gives the tagged variants below and the 4-bit condition
mnemonics `EQ,NE,CS,CC,MI,PL,VS,VC,HI,LS,GE,LT,GT,LE,AL,NV` they carry.
The executor consumes exactly these fields (`misc[...]` in the source). -/
inductive Op2
  | imm (value : Nat) (sh : ShiftInfo)
  | reg (rm : Nat) (sh : ShiftInfo)
deriving DecidableEq, Repr

inductive MemOff
  | imm (off : Int)
  | reg (rm : Nat) (sh : ShiftInfo)
deriving DecidableEq, Repr

inductive BranchTarget
  | imm (offset : Int)
  | reg (rm : Nat)
deriving DecidableEq, Repr

inductive Decoded
  | branch (cond : String) (link : Bool) (target : BranchTarget)
  | memop (cond : String) (mode : String) (base rd : Nat) (sign : Int)
      (pre writeback byte : Bool) (off : MemOff)
  | dataop (cond : String) (opcode : String) (rn rd : Nat) (setflags : Bool) (op2 : Op2)
deriving DecidableEq, Repr

def Decoded.cond : Decoded → String
  | .branch c _ _ => c
  | .memop c _ _ _ _ _ _ _ _ => c
  | .dataop c _ _ _ _ _ => c

/-- `struct.unpack("<I", m)[0]`: requires exactly 4 bytes (`struct.error`
otherwise, modelled as `none`), and reads them as a little-endian unsigned
32-bit integer. -/
def structUnpackI (bs : List Nat) : Option Nat :=
  if bs.length = 4 then
    some (bs.getD 0 0 + 256 * bs.getD 1 0 + 65536 * bs.getD 2 0 + 16777216 * bs.getD 3 0)
  else none

/-- Python `x & 0x80000000 != 0` for an arbitrary (possibly negative)
integer: bit 31 of the two's-complement representation, i.e. of
`x mod 2^32`. -/
def pyBit31 (x : Int) : Bool := decide (2147483648 ≤ x % 4294967296)

/-- Python `bool(res & (1 << 32))`: bit 32 of `res` (used on the
non-negative sums produced by ADD/CMN/ADC). -/
def pyBit32 (x : Int) : Bool := decide ((x / 4294967296) % 2 = 1)

/-- `op1 & 0x80000000` as a test, for a register value (below 2^32). -/
def natBit31 (x : Nat) : Bool := x &&& 0x80000000 != 0

/-- The `workingFlags` dictionary of `execInstr`: a staged value per flag,
absent entries leave the flag untouched. The insertion order in the source
is always C (shifter carry or ADD/ADC carry), then V, then Z, then N, which
is the application order used by `applyStaged`. -/
structure Staged where
  c : Option Bool := none
  v : Option Bool := none
  z : Option Bool := none
  n : Option Bool := none
deriving DecidableEq, Repr

/-- `for flag in workingFlags: self.flags[flag].set(workingFlags[flag])`. -/
def Sim.applyStaged (s : Sim) (st : Staged) : Sim :=
  let s := match st.c with | some b => s.flagSet "C" b | none => s
  let s := match st.v with | some b => s.flagSet "V" b | none => s
  let s := match st.z with | some b => s.flagSet "Z" b | none => s
  match st.n with | some b => s.flagSet "N" b | none => s

/-- The post-condition-check body of `Simulator.execInstr`, dispatching on
the decoded variant. `none` models an uncaught Python exception
(`struct.error` on a short buffer, `ValueError` from a negative shift,
`assert False` on an unknown data opcode). The `print` calls of the source
are side-effect-free here and dropped. -/
def Sim.execBody (s : Sim) (d : Decoded) : Option Sim :=
  match d with
  | .branch _ link target =>
    let s :=
      if link then
        let g := s.regGet 15
        let t := g.2.regSet 14 ((g.1 : Int) + 4)
        { t with stepCondition := t.stepCondition + 1 }
      else s
    match target with
    | .imm offset =>
      let g := s.regGet 15
      some (g.2.regSet 15 ((g.1 : Int) + offset - 4))
    | .reg rm =>
      let g := s.regGet rm
      let t := g.2.regSet 15 ((g.1 : Int) - 4)
      some { t with stepCondition := t.stepCondition - 1 }
  | .memop _ mode base rd sign pre writeback byte off =>
    let gb := s.regGet base
    let baseval := gb.1
    let addrRes : Option (Int × Sim) :=
      match off with
      | .imm o => some ((baseval : Int) + sign * o, gb.2)
      | .reg rm sh =>
        let gr := gb.2.regGet rm
        match gr.2.shiftVal gr.1 sh with
        | none => none
        | some r => some ((baseval : Int) + sign * (r.1.2 : Int), r.2)
    match addrRes with
    | none => none
    | some (addr, s) =>
      let realAddr := if pre then addr else (baseval : Int)
      if mode = "LDR" then
        let gm := s.mem.getE realAddr (if byte then 1 else 4) false
        let s := s.busEvents gm.2
        match gm.1 with
        | none => some s
        | some m =>
          match structUnpackI m with
          | none => none
          | some res =>
            let s := s.regSet rd (res : Int)
            some (if writeback then s.regSet base addr else s)
      else
        let gr := s.regGet rd
        let ms := gr.2.mem.setE realAddr (gr.1 : Int) (if byte then 1 else 4)
        let s := gr.2.busEvents ms.events
        let s := { s with mem := ms.mem }
        if ms.raised then none
        else some (if writeback then s.regSet base addr else s)
  | .dataop _ opcode rn rd setflags op2 =>
    let g1 := s.regGet rn
    let op1 := g1.1
    let o2res : Option (Nat × Staged × Sim) :=
      match op2 with
      | .imm v sh =>
        if sh.arg ≠ 0 then
          match g1.2.shiftVal v sh with
          | none => none
          | some r => some (r.1.2, {}, r.2)
        else some (v, {}, g1.2)
      | .reg rm sh =>
        let gr := g1.2.regGet rm
        match gr.2.shiftVal gr.1 sh with
        | none => none
        | some r => some (r.1.2, { c := some (r.1.1 != 0) }, r.2)
    match o2res with
    | none => none
    | some (op2v, st0, s) =>
      let opRes : Option (Int × Staged × Sim) :=
        if opcode = "AND" ∨ opcode = "TST" then some (((op1 &&& op2v : Nat) : Int), st0, s)
        else if opcode = "EOR" ∨ opcode = "TEQ" then some (((op1 ^^^ op2v : Nat) : Int), st0, s)
        else if opcode = "SUB" ∨ opcode = "CMP" then some ((op1 : Int) - (op2v : Int), st0, s)
        else if opcode = "RSB" then some ((op2v : Int) - (op1 : Int), st0, s)
        else if opcode = "ADD" ∨ opcode = "CMN" then
          let res : Int := (op1 : Int) + (op2v : Int)
          let st := { st0 with c := some (pyBit32 res) }
          let st := if natBit31 op1 == natBit31 op2v then
              { st with v := some (natBit31 op1 == pyBit31 res) } else st
          some (res, st, s)
        else if opcode = "ADC" then
          let gc := s.flagGet "C"
          let res : Int := (op1 : Int) + (op2v : Int) + (if gc.1 then 1 else 0)
          let st := { st0 with c := some (pyBit32 res) }
          let st := if natBit31 op1 == natBit31 op2v then
              { st with v := some (natBit31 op1 == pyBit31 res) } else st
          some (res, st, gc.2)
        else if opcode = "SBC" then
          let gc := s.flagGet "C"
          some ((op1 : Int) - (op2v : Int) + (if gc.1 then 1 else 0) - 1, st0, gc.2)
        else if opcode = "RSC" then
          let gc := s.flagGet "C"
          some ((op2v : Int) - (op1 : Int) + (if gc.1 then 1 else 0) - 1, st0, gc.2)
        else if opcode = "ORR" then some (((op1 ||| op2v : Nat) : Int), st0, s)
        else if opcode = "MOV" then some ((op2v : Int), st0, s)
        else if opcode = "BIC" then
          -- op1 & ~op2 in the source; op1 is a stored register value < 2^32,
          -- so only the low 32 complemented bits of op2 can survive the AND
          some (((op1 &&& (0xFFFFFFFF ^^^ op2v) : Nat) : Int), st0, s)
        else if opcode = "MVN" then some (-(op2v : Int) - 1, st0, s)
        else none
      match opRes with
      | none => none
      | some (res, st, s) =>
        let st := if res = 0 then { st with z := some true } else st
        let st := if pyBit31 res then { st with n := some true } else st
        let s := if setflags then s.applyStaged st else s
        if opcode = "TST" ∨ opcode = "TEQ" ∨ opcode = "CMP" ∨ opcode = "CMN" then some s
        else some (s.regSet rd res)

/-- `Simulator.execInstr`: evaluate the (inverse) condition against the
current flags; on a match do nothing more, otherwise run the body. The
decoding of `fetchedInstr` by the external `BytecodeToInstrInfos` is passed
in as the already-decoded `d`. -/
def Sim.execInstr (s : Sim) (d : Decoded) : Option Sim :=
  let cf := s.condFails d.cond
  if cf.1 then some cf.2 else cf.2.execBody d

/-- `Simulator.nextInstr`: clear the latch, execute the fetched word,
`PC += 4`, refetch in exec mode (keeping the old fetch buffer when the
fetch fails), disable step mode when the latch fired, count one cycle.
`decode` stands for the external `BytecodeToInstrInfos`. -/
def Sim.nextInstr (s : Sim) (decode : List Nat → Decoded) : Option Sim :=
  let s := { s with bus := ⟨false, none⟩ }
  match s.fetchedInstr with
  | none => none
  | some bs =>
    match s.execInstr (decode bs) with
    | none => none
    | some s1 =>
      let g := s1.regGet 15
      let s2 := g.2.regSet 15 ((g.1 : Int) + 4)
      let g2 := s2.regGet 15
      let fe := g2.2.mem.getE (g2.1 : Int) 4 true
      let s3 := g2.2.busEvents fe.2
      let s4 := match fe.1 with
        | some b => { s3 with fetchedInstr := some b }
        | none => s3
      let s5 := if s4.bus.trigged then { s4 with stepMode := none } else s4
      some { s5 with countCycle := s5.countCycle + 1 }

/-- `Simulator.reset`: state to ready, cycle counter to 0, `PC := 0` (an
ordinary breakpoint-checked, history-appending register write), then fetch
the word at PC in exec mode. `bytes(None)` raises in the source, so a failed
fetch is `none`. -/
def Sim.reset (s : Sim) : Option Sim :=
  let s := { s with simState := .ready, countCycle := 0 }
  let s := s.regSet 15 0
  let g := s.regGet 15
  let fe := g.2.mem.getE (g.1 : Int) 4 true
  let s := g.2.busEvents fe.2
  match fe.1 with
  | none => none
  | some b => some { s with fetchedInstr := some b }

/-- Modelled from the spec: `utils.checkMask` (in `simulatorOps/utils.py`,
not part of the sources) checks that every bit listed in `ones` is set and
every bit listed in `zeros` is clear (spec section 4.6, fixed bits of the
half/signed encoding). -/
def checkMask (v : Nat) (ones zeros : List Nat) : Bool :=
  ones.all (fun b => v >>> b &&& 1 = 1) && zeros.all (fun b => v >>> b &&& 1 = 0)

/-- The fields assigned by `HalfSignedMemOp.decode`. `condNibble` stands for
the condition field bits 31..28 consumed by the external
`_decodeCondition`; exactly one of the two offset fields is assigned,
depending on `imm`. -/
structure HSDecoded where
  condNibble : Nat
  imm : Bool
  pre : Bool
  sign : Int
  byte : Bool
  signed : Bool
  writeback : Bool
  mode : String
  basereg : Nat
  rd : Nat
  offsetImm : Option Nat
  offsetReg : Option Nat
deriving DecidableEq, Repr

/-- `HalfSignedMemOp.decode` from `simulatorOps/halfSignedMemOp.py`:
`none` is the `ExecutionException` on a failed mask check. The immediate
offset is translated verbatim as `instrInt & 0xF + ((instrInt >> 4) & 0xF0)`,
in which Python's `+` binds tighter than `&`. -/
def HalfSignedMemOp.decode (instrInt : Nat) : Option HSDecoded :=
  if !checkMask instrInt [7, 4] [27, 26, 25] then none
  else
    let imm := instrInt &&& (1 <<< 22) ≠ 0
    let pre := instrInt &&& (1 <<< 24) ≠ 0
    some
      { condNibble := instrInt >>> 28 &&& 0xF
        imm := imm
        pre := pre
        sign := if instrInt &&& (1 <<< 23) ≠ 0 then 1 else -1
        byte := !(instrInt &&& (1 <<< 5) ≠ 0)
        signed := instrInt &&& (1 <<< 6) ≠ 0
        writeback := (instrInt &&& (1 <<< 21) ≠ 0) || !pre
        mode := if instrInt &&& (1 <<< 20) ≠ 0 then "LDR" else "STR"
        basereg := (instrInt >>> 16) &&& 0xF
        rd := (instrInt >>> 12) &&& 0xF
        offsetImm := if imm then some (instrInt &&& (0xF + ((instrInt >>> 4) &&& 0xF0))) else none
        offsetReg := if imm then none else some (instrInt &&& 0xF) }

/-! Concrete states used by the claim theorems and witnesses. -/

def flags0 : FlagFile := ⟨⟨false, 0⟩, ⟨false, 0⟩, ⟨false, 0⟩, ⟨false, 0⟩⟩

def memC1 : Memory := ⟨[⟨0, 8, [0xAA, 0xAA, 0xAA, 0xAA, 0xAA, 0xAA, 0xAA, 0xAA]⟩], [], []⟩

def simBase : Sim :=
  ⟨List.replicate 16 reg0, flags0, memC1, ⟨false, none⟩, some [0, 0, 0, 0], 0, .ready, none, 0⟩

def simC2 : Sim := { simBase with flags := { flags0 with n := ⟨true, 0⟩ } }

def dMovPL : Decoded := .dataop "PL" "MOV" 0 0 false (.imm 1 ⟨"LSL", .imm, 0⟩)

def dMovNV : Decoded := .dataop "NV" "MOV" 0 0 false (.imm 1 ⟨"LSL", .imm, 0⟩)

def dAddC3 : Decoded := .dataop "AL" "ADD" 1 0 true (.imm 1 ⟨"LSL", .imm, 0⟩)

def simC3a : Sim := { simBase with regs := (List.replicate 16 reg0).set 1 ⟨0x7FFFFFFF, [], 0⟩ }

def simC3b : Sim := { simBase with regs := (List.replicate 16 reg0).set 1 ⟨0xFFFFFFFF, [], 0⟩ }

def memC6 : Memory := ⟨[⟨0, 8, [7, 1, 2, 3, 4, 5, 6, 8]⟩], [], []⟩

def simC6 : Sim := { simBase with mem := memC6 }

def dLdrbC6 : Decoded := .memop "AL" "LDR" 1 0 1 true false true (.imm 0)

def memC8 : Memory := ⟨[⟨0, 4, [1, 2, 3, 4]⟩], [], []⟩

def memC10 : Memory := ⟨[⟨0, 8, [1, 2, 3, 4, 5, 6, 7, 8]⟩], [(0, 0, 4, 9)], [(3, 2)]⟩

def simC10 : Sim :=
  ⟨(List.replicate 16 reg0).set 3 ⟨77, [77], 4⟩,
   { flags0 with c := ⟨true, 2⟩ }, memC10, ⟨false, none⟩, none, 42, .stopped, some "out", 1⟩

def memW9 : Memory := ⟨[⟨0, 8, [1, 2, 3, 4, 5, 6, 7, 8]⟩], [], []⟩

def simW9 : Sim :=
  ⟨List.replicate 16 reg0, flags0, memW9, ⟨false, none⟩, some [0, 0, 0, 0], 5, .started, none, 0⟩

def decodeW9 : List Nat → Decoded := fun _ => .dataop "EQ" "MOV" 0 0 false (.imm 1 ⟨"LSL", .imm, 0⟩)

/-- Well-formedness of a declared section (loader invariants, spec section
3: nonempty range at a nonnegative start, buffer of length `end-start`). -/
def segWF (s : Segment) : Prop :=
  0 ≤ s.start ∧ s.start < s.stop ∧ (s.data.length : Int) = s.stop - s.start

/-- Two sections cover disjoint address ranges. -/
def segDisjoint (a b : Segment) : Prop := a.stop ≤ b.start ∨ b.stop ≤ a.start

/-- Consecutive-in-order sections: the first ends before the second starts. -/
def chainSeg (a b : Segment) : Prop := a.stop ≤ b.start

def lastStopT : Nat → List Segment → Nat
  | d, [] => d
  | _, s :: rest => lastStopT s.stop.toNat rest


def memC7 : Memory := ⟨[⟨6, 8, [9, 9]⟩, ⟨2, 4, [5, 5]⟩], [], []⟩

/-! Claim theorems. -/

/-- Claim C1 (code bug): `set(0, 5, 4)` on a section `[0, 8)` filled with
`0xAA` raises `TypeError` — on Python 3.2+ the statement
`data[sec][offset:offset+size] = val` cannot assign an integer to a
bytearray slice — so no byte is ever written: the section keeps its old
contents and a subsequent `get(0, 4)` returns `[0xAA, 0xAA, 0xAA, 0xAA]`,
not the little-endian bytes `[5, 0, 0, 0]` of the value. The write log
entry `(sec, offset, size, val)` is appended before the raise, as the
claim states. -/
theorem c1_set_raises_writes_nothing :
    (memC1.setE 0 5 4).raised = true
    ∧ (memC1.setE 0 5 4).mem.segments = memC1.segments
    ∧ (memC1.setE 0 5 4).mem.history = [(0, 0, 4, 5)]
    ∧ (((memC1.setE 0 5 4).mem.getE 0 4 false).1 = some [0xAA, 0xAA, 0xAA, 0xAA]
      ∧ some [0xAA, 0xAA, 0xAA, 0xAA] ≠ some [5, 0, 0, 0]) := by
  decide

/-- Claim C2 (code bug): the executor's condition check compares the
mnemonic against `"PI"`, not `"PL"`, and has no `"NV"` case, so with the N
flag set both a PL-conditional and an NV-conditional `MOV R0, #1` execute
and write 1 into R0 — the standard table (and the ARM7TDMI Table 4-2 the
source itself cites) requires PL to be skipped when N is set and NV to
never execute. -/
theorem c2_pl_nv_always_execute :
    (simC2.execInstr dMovPL).map (fun t => (t.regs.getD 0 reg0).val) = some 1
    ∧ (simC2.execInstr dMovNV).map (fun t => (t.regs.getD 0 reg0).val) = some 1
    ∧ (simC2.flags.getF "N").val = true := by
  decide

/-- Claim C3 (code bug): with all flags initially clear,
`ADD R0, R1, #1` with setflags leaves, for `R1 = 0x7FFFFFFF`, the flags
`(Z, N, C, V) = (false, true, false, false)` — the claim requires V set —
and, for `R1 = 0xFFFFFFFF`, `(Z, N, C, V) = (false, false, true, false)` —
the claim requires Z set. The source stages `Z` from the untruncated
`res == 0` (so `res = 2^32` leaves Z untouched), never clears a flag that
is not staged, and stages V as "operand signs equal result sign", the
negation of signed overflow. -/
theorem c3_add_flag_staging_wrong :
    (simC3a.execInstr dAddC3).map
        (fun t => ((t.flags.getF "Z").val, (t.flags.getF "N").val,
                   (t.flags.getF "C").val, (t.flags.getF "V").val,
                   (t.regs.getD 0 reg0).val))
      = some (false, true, false, false, 0x80000000)
    ∧ (simC3b.execInstr dAddC3).map
        (fun t => ((t.flags.getF "Z").val, (t.flags.getF "N").val,
                   (t.flags.getF "C").val, (t.flags.getF "V").val,
                   (t.regs.getD 0 reg0).val))
      = some (false, false, true, false, 0) := by
  decide

/-- Claim C4 (code bug): for the half/signed-transfer word `0xE1D012D3`
(LDRSB R1, [R0, #0x23] — immediate form, low nibble 3, high nibble 2), the
decoder stores `offsetImm = 3`, while the claimed split
`(word & 0xF) + ((word >> 4) & 0xF0)` gives `0x23`: in the source
expression `instrInt & 0xF + ((instrInt >> 4) & 0xF0)` the `+` binds
tighter than `&`, contradicting the comment above it. -/
theorem c4_offsetImm_precedence_bug :
    (HalfSignedMemOp.decode 0xE1D012D3).map (fun d => d.offsetImm) = some (some 3)
    ∧ (0xE1D012D3 &&& 0xF) + ((0xE1D012D3 >>> 4) &&& 0xF0) = 0x23
    ∧ (3 : Nat) ≠ 0x23 := by
  decide

/-- Claim C5 (code bug): the ASR branch of `_shiftVal` computes `firstBit`
but never uses it and ORs `2^(n+1) << (32-n)` = `2^33` into the result, so
ASR of `0` by 1 yields `2^33` instead of `0` (the arithmetic shift of a
value with bit 31 clear must equal the logical shift), and ASR of
`0x80000000` by 4 yields `0x8000000 + 2^33` instead of `0xF8000000`. The
carry-out equals bit `n-1` as claimed. -/
theorem c5_asr_result_wrong :
    simBase.shiftVal 0 ⟨"ASR", .imm, 1⟩ = some ((0, 8589934592), simBase)
    ∧ (8589934592 : Nat) ≠ 0 >>> 1
    ∧ simBase.shiftVal 0x80000000 ⟨"ASR", .imm, 4⟩ = some ((0, 8724152320), simBase)
    ∧ (8724152320 : Nat) ≠ 0xF8000000 := by
  decide

/-- Claim C6 (code bug): a byte LDR at a valid address reads a 1-byte
buffer but unpacks it with `struct.unpack("<I", m)`, which demands exactly
4 bytes, so the instruction raises `struct.error` instead of writing the
zero-extended byte into Rrd: `execInstr` is `none` although the 1-byte read
itself succeeds (returning `[7]`). -/
theorem c6_byte_ldr_raises :
    simC6.execInstr dLdrbC6 = none
    ∧ (simC6.mem.getE 0 1 false).1 = some [7] := by
  decide

theorem findSeg_eq_none (addr : Int) (size : Nat) (l : List Segment)
    (h : ∀ seg ∈ l, ¬(seg.start ≤ addr ∧ addr + (size : Int) ≤ seg.stop)) :
    ∀ i, findSeg addr (size : Int) l i = none := by
  induction l with
  | nil => intro i; rfl
  | cons s rest ih =>
    intro i
    have hs := h s (by simp)
    have hcond : ¬(s.start ≤ addr ∧ addr < s.stop - ((size : Int) - 1)) := by
      rintro ⟨h1, h2⟩
      exact hs ⟨h1, by omega⟩
    simp only [findSeg, if_neg hcond]
    exact ih (fun seg hm => h seg (List.mem_cons_of_mem _ hm)) (i + 1)

theorem getRelativeAddr_eq_none (m : Memory) (addr : Int) (size : Nat)
    (h : ∀ seg ∈ m.segments, ¬(seg.start ≤ addr ∧ addr + (size : Int) ≤ seg.stop)) :
    m.getRelativeAddr addr size = none := by
  unfold Memory.getRelativeAddr
  split
  · rfl
  · exact findSeg_eq_none addr size m.segments h 0

/-- Claim C8 (confirmed): when no declared section satisfies
`start ≤ addr` and `addr + size ≤ end`, `get` raises exactly the event
`(memory, 8, addr)` and returns `None`, and `set` raises the same event,
returns normally (no exception), and leaves the memory object unchanged
(sections, write log and breakpoint masks untouched). -/
theorem c8_invalid_address_rejected (m : Memory) (addr val : Int) (size : Nat)
    (execMode : Bool)
    (h : ∀ seg ∈ m.segments, ¬(seg.start ≤ addr ∧ addr + (size : Int) ≤ seg.stop)) :
    (m.getE addr size execMode).1 = none
    ∧ (m.getE addr size execMode).2 = [⟨"memory", 8, .i addr⟩]
    ∧ (m.setE addr val size).mem = m
    ∧ (m.setE addr val size).events = [⟨"memory", 8, .i addr⟩]
    ∧ (m.setE addr val size).raised = false := by
  have hn := getRelativeAddr_eq_none m addr size h
  unfold Memory.getE Memory.setE
  rw [hn]
  exact ⟨rfl, rfl, rfl, rfl, rfl⟩

/-- Witness for C8 at a concrete input: address 10 is outside the single
section `[0, 4)`. -/
theorem c8_witness :
    (memC8.getE 10 4 false).1 = none
    ∧ (memC8.getE 10 4 false).2 = [⟨"memory", 8, .i 10⟩]
    ∧ (memC8.setE 10 7 4).mem = memC8
    ∧ (memC8.setE 10 7 4).events = [⟨"memory", 8, .i 10⟩]
    ∧ (memC8.setE 10 7 4).raised = false :=
  c8_invalid_address_rejected memC8 10 7 4 false (by decide)

theorem regGet_snd (s : Sim) (i : Nat) :
    (s.regGet i).2 = { s with bus := (s.regGet i).2.bus } := by
  simp only [Sim.regGet]
  split <;> rfl

theorem regGet_fst (s : Sim) (i : Nat) : (s.regGet i).1 = (s.regs.getD i reg0).val := by
  simp only [Sim.regGet]
  split <;> rfl

theorem regSet_eq (s : Sim) (i : Nat) (v : Int) :
    s.regSet i v
      = { s with
            regs := s.regs.set i
              { s.regs.getD i reg0 with
                  history := (s.regs.getD i reg0).history ++ [(v % 4294967296).toNat],
                  val := (v % 4294967296).toNat },
            bus := (s.regSet i v).bus } := by
  simp only [Sim.regSet]
  split <;> rfl

theorem busEvents_eq (evs : List BkptInfo) (s : Sim) :
    s.busEvents evs = { s with bus := (s.busEvents evs).bus } := by
  induction evs generalizing s with
  | nil => rfl
  | cons e rest ih =>
    have h1 : s.busEvents (e :: rest) = Sim.busEvents { s with bus := s.bus.throw e } rest := rfl
    rw [h1, ih]

theorem busEvents_regs (s : Sim) (evs : List BkptInfo) : (s.busEvents evs).regs = s.regs := by
  rw [busEvents_eq]

theorem busEvents_flags (s : Sim) (evs : List BkptInfo) : (s.busEvents evs).flags = s.flags := by
  rw [busEvents_eq]

theorem busEvents_mem (s : Sim) (evs : List BkptInfo) : (s.busEvents evs).mem = s.mem := by
  rw [busEvents_eq]

theorem busEvents_fetched (s : Sim) (evs : List BkptInfo) :
    (s.busEvents evs).fetchedInstr = s.fetchedInstr := by
  rw [busEvents_eq]

theorem busEvents_cycle (s : Sim) (evs : List BkptInfo) :
    (s.busEvents evs).countCycle = s.countCycle := by
  rw [busEvents_eq]

theorem busEvents_state (s : Sim) (evs : List BkptInfo) :
    (s.busEvents evs).simState = s.simState := by
  rw [busEvents_eq]

theorem busEvents_stepMode (s : Sim) (evs : List BkptInfo) :
    (s.busEvents evs).stepMode = s.stepMode := by
  rw [busEvents_eq]

theorem busEvents_stepCond (s : Sim) (evs : List BkptInfo) :
    (s.busEvents evs).stepCondition = s.stepCondition := by
  rw [busEvents_eq]

theorem regGet_regs (s : Sim) (i : Nat) : (s.regGet i).2.regs = s.regs := by
  rw [regGet_snd]

theorem regGet_flags (s : Sim) (i : Nat) : (s.regGet i).2.flags = s.flags := by
  rw [regGet_snd]

theorem regGet_mem (s : Sim) (i : Nat) : (s.regGet i).2.mem = s.mem := by
  rw [regGet_snd]

theorem regGet_fetched (s : Sim) (i : Nat) : (s.regGet i).2.fetchedInstr = s.fetchedInstr := by
  rw [regGet_snd]

theorem regGet_cycle (s : Sim) (i : Nat) : (s.regGet i).2.countCycle = s.countCycle := by
  rw [regGet_snd]

theorem regGet_state (s : Sim) (i : Nat) : (s.regGet i).2.simState = s.simState := by
  rw [regGet_snd]

theorem regGet_stepMode (s : Sim) (i : Nat) : (s.regGet i).2.stepMode = s.stepMode := by
  rw [regGet_snd]

theorem regGet_stepCond (s : Sim) (i : Nat) : (s.regGet i).2.stepCondition = s.stepCondition := by
  rw [regGet_snd]

theorem regSet_regs (s : Sim) (i : Nat) (v : Int) :
    (s.regSet i v).regs
      = s.regs.set i
          { s.regs.getD i reg0 with
              history := (s.regs.getD i reg0).history ++ [(v % 4294967296).toNat],
              val := (v % 4294967296).toNat } := by
  rw [regSet_eq]

theorem regSet_flags (s : Sim) (i : Nat) (v : Int) : (s.regSet i v).flags = s.flags := by
  rw [regSet_eq]

theorem regSet_mem (s : Sim) (i : Nat) (v : Int) : (s.regSet i v).mem = s.mem := by
  rw [regSet_eq]

theorem regSet_fetched (s : Sim) (i : Nat) (v : Int) :
    (s.regSet i v).fetchedInstr = s.fetchedInstr := by
  rw [regSet_eq]

theorem regSet_cycle (s : Sim) (i : Nat) (v : Int) :
    (s.regSet i v).countCycle = s.countCycle := by
  rw [regSet_eq]

theorem regSet_state (s : Sim) (i : Nat) (v : Int) :
    (s.regSet i v).simState = s.simState := by
  rw [regSet_eq]

theorem regSet_stepMode (s : Sim) (i : Nat) (v : Int) :
    (s.regSet i v).stepMode = s.stepMode := by
  rw [regSet_eq]

theorem regSet_stepCond (s : Sim) (i : Nat) (v : Int) :
    (s.regSet i v).stepCondition = s.stepCondition := by
  rw [regSet_eq]

theorem getD_set_ne {α : Type} {l : List α} {i j : Nat} (h : i ≠ j) (r d : α) :
    (l.set i r).getD j d = l.getD j d := by
  simp [List.getD_eq_getElem?_getD, List.getElem?_set_ne h]

theorem getD_set_self {α : Type} {l : List α} {i : Nat} (h : i < l.length) (r d : α) :
    (l.set i r).getD i d = r := by
  simp [List.getD_eq_getElem?_getD, List.getElem?_set_self h]

/-- Claim C10 (confirmed): `reset` only touches the lifecycle state
(→ ready), the cycle counter (→ 0), PC (set to 0 through the ordinary
register write, appending 0 to R15's history and keeping its breakpoint
mask) and the fetch buffer: R0..R14 (values, histories and masks), the four
flag objects (values and masks), and the whole memory object (section
contents, write log and breakpoint masks) are returned unchanged. -/
theorem toNat_emod_zero_c : ((0 : Int) % 4294967296).toNat = 0 := by decide

set_option maxHeartbeats 2000000 in
/-- Claim C10 (confirmed): `reset` only touches the lifecycle state
(to ready), the cycle counter (to 0), PC (set to 0 through the ordinary
register write, appending 0 to R15's history and keeping its breakpoint
mask) and the fetch buffer: R0..R14 (values, histories and masks), the four
flag objects (values and masks), and the whole memory object (section
contents, write log and breakpoint masks) are returned unchanged. -/
theorem c10_reset_frame (s t : Sim) (hlen : s.regs.length = 16) (h : s.reset = some t) :
    (∀ i, i ≤ 14 → t.regs.getD i reg0 = s.regs.getD i reg0)
    ∧ t.flags = s.flags
    ∧ t.mem = s.mem
    ∧ (t.regs.getD 15 reg0).val = 0
    ∧ (t.regs.getD 15 reg0).history = (s.regs.getD 15 reg0).history ++ [0]
    ∧ (t.regs.getD 15 reg0).breakpoint = (s.regs.getD 15 reg0).breakpoint
    ∧ t.countCycle = 0
    ∧ t.simState = SimState.ready
    ∧ t.stepMode = s.stepMode
    ∧ t.stepCondition = s.stepCondition := by
  simp only [Sim.reset] at h
  split at h
  · exact absurd h (by simp)
  · rename_i b heq
    injection h with h
    subst h
    simp only [busEvents_regs, busEvents_flags, busEvents_mem, busEvents_cycle,
      busEvents_state, busEvents_stepMode, busEvents_stepCond,
      regGet_regs, regGet_flags, regGet_mem, regGet_cycle, regGet_state,
      regGet_stepMode, regGet_stepCond,
      regSet_regs, regSet_flags, regSet_mem, regSet_cycle, regSet_state,
      regSet_stepMode, regSet_stepCond, toNat_emod_zero_c]
    have h15 : (15 : Nat) < s.regs.length := by omega
    refine ⟨fun i hi => getD_set_ne (by omega) _ _, ?_⟩
    simp [List.getD_eq_getElem?_getD, List.getElem?_set_self h15]

set_option maxHeartbeats 4000000 in
/-- Witness for C10: a concrete simulator with a nonzero register, a set
flag, a write log, breakpoint masks and a nonzero cycle counter. -/
theorem c10_witness :
    (∀ i, i ≤ 14 →
        ((simC10.reset.getD simC10).regs.getD i reg0 = simC10.regs.getD i reg0))
    ∧ (simC10.reset.getD simC10).flags = simC10.flags
    ∧ (simC10.reset.getD simC10).mem = simC10.mem
    ∧ ((simC10.reset.getD simC10).regs.getD 15 reg0).val = 0
    ∧ (simC10.reset.getD simC10).countCycle = 0 := by
  have h : simC10.reset = some (simC10.reset.getD simC10) := by decide
  have := c10_reset_frame simC10 (simC10.reset.getD simC10) (by decide) h
  exact ⟨this.1, this.2.1, this.2.2.1, this.2.2.2.1, this.2.2.2.2.2.2.1⟩

theorem flagGet_fst (s : Sim) (n : String) : (s.flagGet n).1 = (s.flags.getF n).val := by
  simp only [Sim.flagGet]
  split <;> rfl

theorem flagGet_snd (s : Sim) (n : String) :
    (s.flagGet n).2 = { s with bus := (s.flagGet n).2.bus } := by
  simp only [Sim.flagGet]
  split <;> rfl

theorem flagGet_flags (s : Sim) (n : String) : (s.flagGet n).2.flags = s.flags := by
  rw [flagGet_snd]

theorem flagGet2_snd (s : Sim) (a b : String) :
    ((s.flagGet a).2.flagGet b).2
      = { s with bus := ((s.flagGet a).2.flagGet b).2.bus } := by
  simp only [Sim.flagGet]
  split_ifs <;> rfl

theorem condFails_eq_EQ (s : Sim) :
    s.condFails "EQ" = (!(s.flagGet "Z").1, (s.flagGet "Z").2) := rfl

theorem condFails_eq_NE (s : Sim) :
    s.condFails "NE" = ((s.flagGet "Z").1, (s.flagGet "Z").2) := rfl

theorem condFails_eq_CS (s : Sim) :
    s.condFails "CS" = (!(s.flagGet "C").1, (s.flagGet "C").2) := rfl

theorem condFails_eq_CC (s : Sim) :
    s.condFails "CC" = ((s.flagGet "C").1, (s.flagGet "C").2) := rfl

theorem condFails_eq_MI (s : Sim) :
    s.condFails "MI" = (!(s.flagGet "N").1, (s.flagGet "N").2) := rfl

theorem condFails_eq_PI (s : Sim) :
    s.condFails "PI" = ((s.flagGet "N").1, (s.flagGet "N").2) := rfl

theorem condFails_eq_VS (s : Sim) :
    s.condFails "VS" = (!(s.flagGet "V").1, (s.flagGet "V").2) := rfl

theorem condFails_eq_VC (s : Sim) :
    s.condFails "VC" = ((s.flagGet "V").1, (s.flagGet "V").2) := rfl

theorem condFails_eq_HI (s : Sim) :
    s.condFails "HI"
      = if !(s.flagGet "C").1 then (true, (s.flagGet "C").2)
        else (((s.flagGet "C").2.flagGet "Z").1, ((s.flagGet "C").2.flagGet "Z").2) := rfl

theorem condFails_eq_LS (s : Sim) :
    s.condFails "LS"
      = if !(s.flagGet "C").1 then (false, (s.flagGet "C").2)
        else (!((s.flagGet "C").2.flagGet "Z").1, ((s.flagGet "C").2.flagGet "Z").2) := rfl

theorem condFails_eq_GE (s : Sim) :
    s.condFails "GE" = (!((s.flags.getF "V").val == (s.flags.getF "N").val), s) := rfl

theorem condFails_eq_LT (s : Sim) :
    s.condFails "LT" = ((s.flags.getF "V").val == (s.flags.getF "N").val, s) := rfl

theorem condFails_eq_GT (s : Sim) :
    s.condFails "GT"
      = if (s.flagGet "Z").1 then (true, (s.flagGet "Z").2)
        else (!(((s.flagGet "Z").2.flags.getF "V").val == ((s.flagGet "Z").2.flags.getF "N").val),
              (s.flagGet "Z").2) := rfl

theorem condFails_eq_LE (s : Sim) :
    s.condFails "LE"
      = if (s.flagGet "Z").1 then (false, (s.flagGet "Z").2)
        else ((((s.flagGet "Z").2.flags.getF "V").val == ((s.flagGet "Z").2.flags.getF "N").val),
              (s.flagGet "Z").2) := rfl

theorem condFails_eq_other (s : Sim) (c : String) (h1 : ¬(c = "EQ")) (h2 : ¬(c = "NE")) (h3 : ¬(c = "CS")) (h4 : ¬(c = "CC")) (h5 : ¬(c = "MI")) (h6 : ¬(c = "PI")) (h7 : ¬(c = "VS")) (h8 : ¬(c = "VC")) (h9 : ¬(c = "HI")) (h10 : ¬(c = "LS")) (h11 : ¬(c = "GE")) (h12 : ¬(c = "LT")) (h13 : ¬(c = "GT")) (h14 : ¬(c = "LE")) :
    s.condFails c = (false, s) := by
  unfold Sim.condFails
  rw [if_neg h1, if_neg h2, if_neg h3, if_neg h4, if_neg h5, if_neg h6, if_neg h7, if_neg h8, if_neg h9, if_neg h10, if_neg h11, if_neg h12, if_neg h13, if_neg h14]

theorem condFails_snd (s : Sim) (c : String) :
    (s.condFails c).2 = { s with bus := (s.condFails c).2.bus } := by
  by_cases h1 : c = "EQ"
  · subst h1
    rw [condFails_eq_EQ]
    exact flagGet_snd s "Z"
  by_cases h2 : c = "NE"
  · subst h2
    rw [condFails_eq_NE]
    exact flagGet_snd s "Z"
  by_cases h3 : c = "CS"
  · subst h3
    rw [condFails_eq_CS]
    exact flagGet_snd s "C"
  by_cases h4 : c = "CC"
  · subst h4
    rw [condFails_eq_CC]
    exact flagGet_snd s "C"
  by_cases h5 : c = "MI"
  · subst h5
    rw [condFails_eq_MI]
    exact flagGet_snd s "N"
  by_cases h6 : c = "PI"
  · subst h6
    rw [condFails_eq_PI]
    exact flagGet_snd s "N"
  by_cases h7 : c = "VS"
  · subst h7
    rw [condFails_eq_VS]
    exact flagGet_snd s "V"
  by_cases h8 : c = "VC"
  · subst h8
    rw [condFails_eq_VC]
    exact flagGet_snd s "V"
  by_cases h9 : c = "HI"
  · subst h9
    rw [condFails_eq_HI]
    split
    · exact flagGet_snd s "C"
    · exact flagGet2_snd s "C" "Z"
  by_cases h10 : c = "LS"
  · subst h10
    rw [condFails_eq_LS]
    split
    · exact flagGet_snd s "C"
    · exact flagGet2_snd s "C" "Z"
  by_cases h11 : c = "GE"
  · subst h11
    rfl
  by_cases h12 : c = "LT"
  · subst h12
    rfl
  by_cases h13 : c = "GT"
  · subst h13
    rw [condFails_eq_GT]
    split
    · exact flagGet_snd s "Z"
    · exact flagGet_snd s "Z"
  by_cases h14 : c = "LE"
  · subst h14
    rw [condFails_eq_LE]
    split
    · exact flagGet_snd s "Z"
    · exact flagGet_snd s "Z"
  rw [condFails_eq_other s c h1 h2 h3 h4 h5 h6 h7 h8 h9 h10 h11 h12 h13 h14]

theorem condFails_fst_bus (s : Sim) (b : Bus) (c : String) :
    (Sim.condFails { s with bus := b } c).1 = (s.condFails c).1 := by
  by_cases h1 : c = "EQ"
  · subst h1
    rw [condFails_eq_EQ, condFails_eq_EQ]
    simp only [flagGet_fst]
  by_cases h2 : c = "NE"
  · subst h2
    rw [condFails_eq_NE, condFails_eq_NE]
    simp only [flagGet_fst]
  by_cases h3 : c = "CS"
  · subst h3
    rw [condFails_eq_CS, condFails_eq_CS]
    simp only [flagGet_fst]
  by_cases h4 : c = "CC"
  · subst h4
    rw [condFails_eq_CC, condFails_eq_CC]
    simp only [flagGet_fst]
  by_cases h5 : c = "MI"
  · subst h5
    rw [condFails_eq_MI, condFails_eq_MI]
    simp only [flagGet_fst]
  by_cases h6 : c = "PI"
  · subst h6
    rw [condFails_eq_PI, condFails_eq_PI]
    simp only [flagGet_fst]
  by_cases h7 : c = "VS"
  · subst h7
    rw [condFails_eq_VS, condFails_eq_VS]
    simp only [flagGet_fst]
  by_cases h8 : c = "VC"
  · subst h8
    rw [condFails_eq_VC, condFails_eq_VC]
    simp only [flagGet_fst]
  by_cases h9 : c = "HI"
  · subst h9
    rw [condFails_eq_HI, condFails_eq_HI]
    simp only [flagGet_fst, flagGet_flags]
    split <;> rfl
  by_cases h10 : c = "LS"
  · subst h10
    rw [condFails_eq_LS, condFails_eq_LS]
    simp only [flagGet_fst, flagGet_flags]
    split <;> rfl
  by_cases h11 : c = "GE"
  · subst h11
    rw [condFails_eq_GE, condFails_eq_GE]
  by_cases h12 : c = "LT"
  · subst h12
    rw [condFails_eq_LT, condFails_eq_LT]
  by_cases h13 : c = "GT"
  · subst h13
    rw [condFails_eq_GT, condFails_eq_GT]
    simp only [flagGet_fst, flagGet_flags]
    split <;> rfl
  by_cases h14 : c = "LE"
  · subst h14
    rw [condFails_eq_LE, condFails_eq_LE]
    simp only [flagGet_fst, flagGet_flags]
    split <;> rfl
  rw [condFails_eq_other s c h1 h2 h3 h4 h5 h6 h7 h8 h9 h10 h11 h12 h13 h14,
      condFails_eq_other { s with bus := b } c h1 h2 h3 h4 h5 h6 h7 h8 h9 h10 h11 h12 h13 h14]

theorem condFails_regs (s : Sim) (c : String) : (s.condFails c).2.regs = s.regs := by
  rw [condFails_snd]

theorem condFails_flags (s : Sim) (c : String) : (s.condFails c).2.flags = s.flags := by
  rw [condFails_snd]

theorem condFails_mem (s : Sim) (c : String) : (s.condFails c).2.mem = s.mem := by
  rw [condFails_snd]

theorem condFails_fetched (s : Sim) (c : String) :
    (s.condFails c).2.fetchedInstr = s.fetchedInstr := by
  rw [condFails_snd]

theorem condFails_cycle (s : Sim) (c : String) :
    (s.condFails c).2.countCycle = s.countCycle := by
  rw [condFails_snd]

theorem condFails_state (s : Sim) (c : String) :
    (s.condFails c).2.simState = s.simState := by
  rw [condFails_snd]

theorem condFails_stepMode (s : Sim) (c : String) :
    (s.condFails c).2.stepMode = s.stepMode := by
  rw [condFails_snd]

theorem condFails_stepCond (s : Sim) (c : String) :
    (s.condFails c).2.stepCondition = s.stepCondition := by
  rw [condFails_snd]

theorem toNat_emod_add4 (v : Nat) :
    (((v : Int) + 4) % 4294967296).toNat = (v + 4) % 4294967296 := by
  omega

set_option maxHeartbeats 1000000 in
theorem nextTail_fields (s1 : Sim) :
    (let g := s1.regGet 15
     let s2 := g.2.regSet 15 ((g.1 : Int) + 4)
     let g2 := s2.regGet 15
     let fe := g2.2.mem.getE (g2.1 : Int) 4 true
     let s3 := g2.2.busEvents fe.2
     let s4 := match fe.1 with
       | some b => { s3 with fetchedInstr := some b }
       | none => s3
     let s5 := if s4.bus.trigged then { s4 with stepMode := none } else s4
     let t := { s5 with countCycle := s5.countCycle + 1 }
     t.regs = s1.regs.set 15
         { s1.regs.getD 15 reg0 with
             history := (s1.regs.getD 15 reg0).history
               ++ [(((((s1.regs.getD 15 reg0).val : Int)) + 4) % 4294967296).toNat],
             val := (((((s1.regs.getD 15 reg0).val : Int)) + 4) % 4294967296).toNat }
     ∧ t.flags = s1.flags
     ∧ t.mem = s1.mem
     ∧ t.countCycle = s1.countCycle + 1) := by
  refine ⟨?_, ?_, ?_, ?_⟩ <;>
    · split <;> split <;>
        simp only [busEvents_regs, busEvents_flags, busEvents_mem, busEvents_cycle,
          regGet_regs, regGet_flags, regGet_mem, regGet_cycle, regGet_fst,
          regSet_regs, regSet_flags, regSet_mem, regSet_cycle]

set_option maxHeartbeats 2000000 in
/-- Claim C9 (confirmed): when the executor's condition check asks to skip
(the decoded condition evaluates false against the current flags), one
`nextInstr` cycle leaves R0..R14 (values, histories, masks), the four flag
objects and the whole memory object unchanged, while PC advances by 4
(modulo 2^32, through the ordinary register write) and `countCycle`
increments by 1. -/
theorem c9_condition_false_frame (s : Sim) (decode : List Nat → Decoded) (bs : List Nat)
    (hlen : s.regs.length = 16)
    (hfetch : s.fetchedInstr = some bs)
    (hskip : (s.condFails (decode bs).cond).1 = true) :
    ∃ t, s.nextInstr decode = some t
    ∧ (∀ i, i ≤ 14 → t.regs.getD i reg0 = s.regs.getD i reg0)
    ∧ t.flags = s.flags
    ∧ t.mem = s.mem
    ∧ (t.regs.getD 15 reg0).val = ((s.regs.getD 15 reg0).val + 4) % 4294967296
    ∧ t.countCycle = s.countCycle + 1 := by
  have hskip0 :
      (Sim.condFails { s with bus := (⟨false, none⟩ : Bus) } (decode bs).cond).1 = true := by
    rw [condFails_fst_bus]; exact hskip
  have htail := nextTail_fields (Sim.condFails { s with bus := (⟨false, none⟩ : Bus) }
    (decode bs).cond).2
  simp only [] at htail
  obtain ⟨hregs, hflags, hmem, hcycle⟩ := htail
  rw [hfetch] at hskip0 hregs hflags hmem hcycle
  simp only [Sim.nextInstr, Sim.execInstr, hfetch, hskip0, if_true]
  refine ⟨_, rfl, ?_, ?_, ?_, ?_, ?_⟩
  · intro i hi
    rw [hregs, getD_set_ne (by omega) _ _, condFails_regs]
  · rw [hflags, condFails_flags]
  · rw [hmem, condFails_mem]
  · rw [hregs, getD_set_self (by rw [condFails_regs]; show (15 : Nat) < s.regs.length; omega)
      _ _, condFails_regs, toNat_emod_add4]
  · rw [hcycle, condFails_cycle]

/-- Witness for C9: an EQ-conditional MOV while Z is clear is skipped; the
cycle leaves registers, flags and memory alone, advancing PC and the cycle
counter. -/
theorem c9_witness :
    ∃ t, simW9.nextInstr decodeW9 = some t
    ∧ (∀ i, i ≤ 14 → t.regs.getD i reg0 = simW9.regs.getD i reg0)
    ∧ t.flags = simW9.flags
    ∧ t.mem = simW9.mem
    ∧ (t.regs.getD 15 reg0).val = ((simW9.regs.getD 15 reg0).val + 4) % 4294967296
    ∧ t.countCycle = simW9.countCycle + 1 :=
  c9_condition_false_frame simW9 decodeW9 [0, 0, 0, 0] (by decide) rfl (by decide)

theorem chain_of_sorted_disjoint :
    ∀ (l : List Segment), (∀ s ∈ l, segWF s) →
      l.Pairwise (fun a b => a.start ≤ b.start) →
      l.Pairwise segDisjoint →
      l.Pairwise chainSeg := by
  intro l
  induction l with
  | nil => intro _ _ _; exact List.Pairwise.nil
  | cons s rest ih =>
    intro hwf hsort hdis
    rw [List.pairwise_cons] at hsort hdis ⊢
    refine ⟨?_, ih (fun t ht => hwf t (by simp [ht])) hsort.2 hdis.2⟩
    intro t ht
    have h1 := hsort.1 t ht
    have h2 := hdis.1 t ht
    have hwt := hwf t (by simp [ht])
    unfold segWF at hwt
    unfold segDisjoint at h2
    unfold chainSeg
    omega

theorem serFold_extends (l : List Segment) (acc : List Nat) :
    ∃ t, l.foldl serStep acc = acc ++ t := by
  induction l generalizing acc with
  | nil => exact ⟨[], by simp⟩
  | cons s rest ih =>
    obtain ⟨t, ht⟩ := ih (serStep acc s)
    refine ⟨(List.replicate (s.start - (acc.length : Int)).toNat 0 ++ s.data
      ++ List.replicate (s.stop - s.start - (s.data.length : Int)).toNat 0) ++ t, ?_⟩
    rw [List.foldl_cons, ht]
    simp [serStep, List.append_assoc]

theorem serStep_length (acc : List Nat) (s : Segment)
    (hb : (acc.length : Int) ≤ s.start) (hwf : segWF s) :
    (serStep acc s).length = s.stop.toNat := by
  obtain ⟨h0, hlt, hlen⟩ := hwf
  simp [serStep]
  omega

theorem serFold_length (l : List Segment) : ∀ (acc : List Nat),
    (∀ s ∈ l, segWF s) → l.Pairwise chainSeg →
    (∀ s ∈ l, (acc.length : Int) ≤ s.start) →
    (l.foldl serStep acc).length = lastStopT acc.length l := by
  induction l with
  | nil => intro acc _ _ _; rfl
  | cons s rest ih =>
    intro acc hwf hchain hb
    rw [List.foldl_cons]
    have hwfs := hwf s (by simp)
    have hlen1 : (serStep acc s).length = s.stop.toNat :=
      serStep_length acc s (hb s (by simp)) hwfs
    rw [List.pairwise_cons] at hchain
    have hb2 : ∀ t ∈ rest, ((serStep acc s).length : Int) ≤ t.start := by
      intro t ht
      rw [hlen1]
      have hc := hchain.1 t ht
      have := hwfs.1
      have := hwfs.2.1
      unfold chainSeg at hc
      omega
    rw [ih (serStep acc s) (fun t ht => hwf t (by simp [ht])) hchain.2 hb2, hlen1]
    rfl

theorem serStep_decompose (acc : List Nat) (s : Segment) (hwf : segWF s) :
    serStep acc s
      = (acc ++ List.replicate (s.start - (acc.length : Int)).toNat 0) ++ s.data := by
  obtain ⟨h0, hlt, hlen⟩ := hwf
  have hz : (s.stop - s.start - (s.data.length : Int)).toNat = 0 := by omega
  simp [serStep, hz, List.append_assoc]

theorem serFold_inside (l : List Segment) : ∀ (acc : List Nat),
    (∀ s ∈ l, segWF s) → l.Pairwise chainSeg →
    (∀ s ∈ l, (acc.length : Int) ≤ s.start) →
    ∀ seg ∈ l, ∀ i, i < seg.data.length →
      (l.foldl serStep acc)[seg.start.toNat + i]? = seg.data[i]? := by
  induction l with
  | nil => intro _ _ _ _ seg h; exact absurd h (by simp)
  | cons s rest ih =>
    intro acc hwf hchain hb seg hseg i hi
    rw [List.foldl_cons]
    have hwfs := hwf s (by simp)
    have hbs := hb s (by simp)
    rw [List.pairwise_cons] at hchain
    have hlen1 : (serStep acc s).length = s.stop.toNat :=
      serStep_length acc s hbs hwfs
    have hb2 : ∀ t ∈ rest, ((serStep acc s).length : Int) ≤ t.start := by
      intro t ht
      rw [hlen1]
      have hc := hchain.1 t ht
      have h1 := hwfs.1
      have h2 := hwfs.2.1
      unfold chainSeg at hc
      omega
    rcases List.mem_cons.mp hseg with h | h
    · subst h
      obtain ⟨t, ht⟩ := serFold_extends rest (serStep acc seg)
      rw [ht]
      have hpre : ((acc ++ List.replicate (seg.start - (acc.length : Int)).toNat 0)).length
          = seg.start.toNat := by
        have h1 := hwfs.1
        simp
        omega
      rw [serStep_decompose acc seg hwfs, List.append_assoc]
      rw [List.getElem?_append_right (by rw [hpre]; omega)]
      rw [hpre]
      have hidx : seg.start.toNat + i - seg.start.toNat = i := by omega
      rw [hidx]
      rw [List.getElem?_append]
      rw [if_pos hi]
    · exact ih (serStep acc s) (fun t ht => hwf t (by simp [ht])) hchain.2 hb2 seg h i hi

theorem serFold_zero_or_seg (l : List Segment) : ∀ (acc : List Nat) (P : Nat → Prop),
    (∀ s ∈ l, segWF s) → l.Pairwise chainSeg →
    (∀ s ∈ l, (acc.length : Int) ≤ s.start) →
    (∀ k, k < acc.length → acc[k]? = some 0 ∨ P k) →
    ∀ k, k < (l.foldl serStep acc).length →
      (l.foldl serStep acc)[k]? = some 0 ∨ P k
      ∨ ∃ seg ∈ l, seg.start ≤ (k : Int) ∧ (k : Int) < seg.stop := by
  induction l with
  | nil =>
    intro acc P _ _ _ hacc k hk
    rcases hacc k hk with h | h
    · exact Or.inl h
    · exact Or.inr (Or.inl h)
  | cons s rest ih =>
    intro acc P hwf hchain hb hacc k hk
    rw [List.foldl_cons] at hk ⊢
    have hwfs := hwf s (by simp)
    have hbs := hb s (by simp)
    rw [List.pairwise_cons] at hchain
    have hlen1 : (serStep acc s).length = s.stop.toNat :=
      serStep_length acc s hbs hwfs
    have hb2 : ∀ t ∈ rest, ((serStep acc s).length : Int) ≤ t.start := by
      intro t ht
      rw [hlen1]
      have hc := hchain.1 t ht
      have h1 := hwfs.1
      have h2 := hwfs.2.1
      unfold chainSeg at hc
      omega
    have hacc2 : ∀ k, k < (serStep acc s).length →
        (serStep acc s)[k]? = some 0 ∨ (P k ∨ (s.start ≤ (k : Int) ∧ (k : Int) < s.stop)) := by
      intro j hj
      rw [hlen1] at hj
      rw [serStep_decompose acc s hwfs]
      by_cases hj1 : j < acc.length
      · rw [List.getElem?_append]
        rw [if_pos (by simp; omega)]
        rw [List.getElem?_append]
        rw [if_pos hj1]
        rcases hacc j hj1 with h | h
        · exact Or.inl h
        · exact Or.inr (Or.inl h)
      · by_cases hj2 : j < s.start.toNat
        · refine Or.inl ?_
          rw [List.getElem?_append]
          rw [if_pos (by simp; omega)]
          rw [List.getElem?_append_right (by omega)]
          rw [List.getElem?_replicate]
          rw [if_pos (by simp; omega)]
        · refine Or.inr (Or.inr ?_)
          have h1 := hwfs.1
          constructor
          · omega
          · omega
    have key := ih (serStep acc s) (fun j => P j ∨ (s.start ≤ (j : Int) ∧ (j : Int) < s.stop))
      (fun t ht => hwf t (by simp [ht])) hchain.2 hb2 hacc2 k hk
    rcases key with h | h | h
    · exact Or.inl h
    · rcases h with h | h
      · exact Or.inr (Or.inl h)
      · exact Or.inr (Or.inr ⟨s, by simp, h⟩)
    · obtain ⟨seg, hm, hin⟩ := h
      exact Or.inr (Or.inr ⟨seg, by simp [hm], hin⟩)

theorem lastStopT_indep (l : List Segment) (hne : l ≠ []) (d e : Nat) :
    lastStopT d l = lastStopT e l := by
  cases l with
  | nil => exact absurd rfl hne
  | cons s rest => rfl

theorem lastStopT_mem (l : List Segment) (hne : l ≠ []) (d : Nat) :
    ∃ s ∈ l, lastStopT d l = s.stop.toNat := by
  induction l generalizing d with
  | nil => exact absurd rfl hne
  | cons s rest ih =>
    cases rest with
    | nil => exact ⟨s, by simp, rfl⟩
    | cons t more =>
      obtain ⟨u, hu, he⟩ := ih (by simp) s.stop.toNat
      exact ⟨u, by simp [List.mem_cons.mp hu], he⟩

theorem le_lastStopT (l : List Segment) :
    ∀ (d : Nat), (∀ s ∈ l, segWF s) → l.Pairwise chainSeg →
    ∀ s ∈ l, s.stop.toNat ≤ lastStopT d l := by
  induction l with
  | nil => intro _ _ _ s hs; exact absurd hs (by simp)
  | cons s rest ih =>
    intro d hwf hchain u hu
    rw [List.pairwise_cons] at hchain
    rcases List.mem_cons.mp hu with h | h
    · subst h
      cases rest with
      | nil => exact le_of_eq rfl
      | cons t more =>
        obtain ⟨w, hw, hwe⟩ := lastStopT_mem (t :: more) (by simp) u.stop.toNat
        have hc := hchain.1 w hw
        have hww := hwf w (by simp [hw])
        unfold chainSeg at hc
        unfold segWF at hww
        show u.stop.toNat ≤ lastStopT u.stop.toNat (t :: more)
        rw [hwe]
        omega
    · have := ih s.stop.toNat (fun t ht => hwf t (by simp [ht])) hchain.2 u h
      exact this

theorem foldl_max_init (l : List Segment) : ∀ (a : Int),
    a ≤ l.foldl (fun x t => max x t.stop) a := by
  induction l with
  | nil => intro a; exact le_refl a
  | cons s rest ih =>
    intro a
    calc a ≤ max a s.stop := le_max_left _ _
    _ ≤ _ := ih (max a s.stop)

theorem foldl_max_ub (l : List Segment) : ∀ (a : Int) (s : Segment), s ∈ l →
    s.stop ≤ l.foldl (fun x t => max x t.stop) a := by
  induction l with
  | nil => intro _ s hs; exact absurd hs (by simp)
  | cons u rest ih =>
    intro a s hs
    rcases List.mem_cons.mp hs with h | h
    · subst h
      calc s.stop ≤ max a s.stop := le_max_right _ _
      _ ≤ _ := foldl_max_init rest (max a s.stop)
    · exact ih (max a u.stop) s h

theorem foldl_max_cases (l : List Segment) : ∀ (a : Int),
    l.foldl (fun x t => max x t.stop) a = a
    ∨ ∃ s ∈ l, l.foldl (fun x t => max x t.stop) a = s.stop := by
  induction l with
  | nil => intro a; exact Or.inl rfl
  | cons u rest ih =>
    intro a
    rw [List.foldl_cons]
    rcases ih (max a u.stop) with h | h
    · rcases max_cases a u.stop with ⟨he, _⟩ | ⟨he, _⟩
      · exact Or.inl (h.trans he)
      · exact Or.inr ⟨u, by simp, h.trans he⟩
    · obtain ⟨s, hs, he⟩ := h
      exact Or.inr ⟨s, by simp [hs], he⟩

theorem maxAddr_ub (m : Memory) : ∀ s ∈ m.segments, s.stop ≤ m.maxAddr := by
  intro s hs
  unfold Memory.maxAddr
  cases hm : m.segments with
  | nil => rw [hm] at hs; exact absurd hs (by simp)
  | cons u rest =>
    rw [hm] at hs
    rcases List.mem_cons.mp hs with h | h
    · subst h
      exact foldl_max_init rest s.stop
    · exact foldl_max_ub rest u.stop s h

theorem maxAddr_mem (m : Memory) (hne : m.segments ≠ []) :
    ∃ s ∈ m.segments, m.maxAddr = s.stop := by
  unfold Memory.maxAddr
  cases hm : m.segments with
  | nil => exact absurd hm hne
  | cons u rest =>
    rcases foldl_max_cases rest u.stop with h | h
    · exact ⟨u, by simp, h⟩
    · obtain ⟨s, hs, he⟩ := h
      exact ⟨s, by simp [hs], he⟩

theorem segLE_trans (a b c : Segment) (hab : segLE a b = true) (hbc : segLE b c = true) :
    segLE a c = true := by
  simp only [segLE, decide_eq_true_eq] at hab hbc ⊢
  omega

theorem segLE_total (a b : Segment) : (segLE a b || segLE b a) = true := by
  simp only [segLE, Bool.or_eq_true, decide_eq_true_eq]
  omega

/-- Claim C7: for a well-formed memory (nonempty, pairwise-disjoint
sections of positive length whose buffers match their address ranges),
`serialize()` has length `maxAddr`, reproduces every section byte at its
absolute address, and is 0 at every address below `maxAddr` that lies
outside all sections. -/
theorem c7_serialize_spec (m : Memory)
    (hne : m.segments ≠ [])
    (hwf : ∀ seg ∈ m.segments, segWF seg)
    (hdis : m.segments.Pairwise segDisjoint) :
    m.serialize.length = m.maxAddr.toNat
    ∧ (∀ seg ∈ m.segments, ∀ i, i < seg.data.length →
        m.serialize[seg.start.toNat + i]? = seg.data[i]?)
    ∧ (∀ k : Nat, k < m.maxAddr.toNat →
        (∀ seg ∈ m.segments, (k : Int) < seg.start ∨ seg.stop ≤ (k : Int)) →
        m.serialize[k]? = some 0) := by
  have hperm : (List.mergeSort m.segments segLE).Perm m.segments :=
    List.mergeSort_perm m.segments segLE
  have hmeml : ∀ x : Segment, x ∈ List.mergeSort m.segments segLE ↔ x ∈ m.segments :=
    fun x => hperm.mem_iff
  have hwfl : ∀ s ∈ List.mergeSort m.segments segLE, segWF s :=
    fun s hs => hwf s ((hmeml s).mp hs)
  have hsortb : (List.mergeSort m.segments segLE).Pairwise (fun a b => segLE a b = true) :=
    List.sorted_mergeSort segLE_trans segLE_total m.segments
  have hsort : (List.mergeSort m.segments segLE).Pairwise (fun a b => a.start ≤ b.start) :=
    hsortb.imp (fun h => by simpa [segLE, decide_eq_true_eq] using h)
  have hdisl : (List.mergeSort m.segments segLE).Pairwise segDisjoint :=
    (hperm.pairwise_iff (fun h => h.symm)).mpr hdis
  have hchain := chain_of_sorted_disjoint _ hwfl hsort hdisl
  have hlne : List.mergeSort m.segments segLE ≠ [] := by
    intro h
    apply hne
    have hl := hperm.length_eq
    rw [h] at hl
    exact List.length_eq_zero.mp hl.symm
  have hser : m.serialize = (List.mergeSort m.segments segLE).foldl serStep [] := rfl
  have hacc0 : ∀ s ∈ List.mergeSort m.segments segLE,
      ((([] : List Nat)).length : Int) ≤ s.start := by
    intro s hs
    have := (hwfl s hs).1
    simpa using this
  have hlen := serFold_length (List.mergeSort m.segments segLE) [] hwfl hchain hacc0
  simp only [List.length_nil] at hlen
  obtain ⟨s0, hs0, hs0e⟩ := lastStopT_mem (List.mergeSort m.segments segLE) hlne 0
  obtain ⟨s1, hs1, hs1e⟩ := maxAddr_mem m hne
  have hub0 : s0.stop ≤ m.maxAddr := maxAddr_ub m s0 ((hmeml s0).mp hs0)
  have hub1 : s1.stop.toNat ≤ lastStopT 0 (List.mergeSort m.segments segLE) :=
    le_lastStopT (List.mergeSort m.segments segLE) 0 hwfl hchain s1 ((hmeml s1).mpr hs1)
  have hmaxeq : lastStopT 0 (List.mergeSort m.segments segLE) = m.maxAddr.toNat := by
    have hw0 := hwfl s0 hs0
    have hw1 := hwf s1 hs1
    unfold segWF at hw0 hw1
    omega
  refine ⟨?_, ?_, ?_⟩
  · rw [hser, hlen, hmaxeq]
  · intro seg hseg i hi
    rw [hser]
    exact serFold_inside (List.mergeSort m.segments segLE) [] hwfl hchain hacc0
      seg ((hmeml seg).mpr hseg) i hi
  · intro k hk houtside
    rw [hser]
    have hk2 : k < ((List.mergeSort m.segments segLE).foldl serStep []).length := by
      rw [hlen, hmaxeq]
      exact hk
    have hdich := serFold_zero_or_seg (List.mergeSort m.segments segLE) []
      (fun _ => False) hwfl hchain hacc0 (by intro j hj; simp at hj) k hk2
    rcases hdich with h | h | h
    · exact h
    · exact h.elim
    · obtain ⟨seg, hm, h1, h2⟩ := h
      have := houtside seg ((hmeml seg).mp hm)
      omega

/-- Witness for C7: two out-of-order sections `[6,8)` and `[2,4)`; the
image is `[0,0,5,5,0,0,9,9]` of length `maxAddr = 8`. -/
theorem c7_witness :
    memC7.serialize.length = memC7.maxAddr.toNat
    ∧ (∀ seg ∈ memC7.segments, ∀ i, i < seg.data.length →
        memC7.serialize[seg.start.toNat + i]? = seg.data[i]?)
    ∧ (∀ k : Nat, k < memC7.maxAddr.toNat →
        (∀ seg ∈ memC7.segments, (k : Int) < seg.start ∨ seg.stop ≤ (k : Int)) →
        memC7.serialize[k]? = some 0) :=
  c7_serialize_spec memC7 (by decide)
    (by
      intro seg hs
      simp only [memC7, List.mem_cons, List.not_mem_nil, or_false] at hs
      rcases hs with h | h <;> subst h <;> unfold segWF <;> refine ⟨by decide, by decide, by decide⟩)
    (by
      refine List.Pairwise.cons ?_ (List.pairwise_singleton _ _)
      intro b hb
      simp only [memC7, List.mem_cons, List.not_mem_nil, or_false] at hb
      subst hb
      unfold segDisjoint
      decide)
